import Mathlib

set_option linter.unusedSectionVars false

/-!
Verification of the GraphRAG → Neo4j repository (src/export_to_neo4j.py,
src/add_embeddings.py, src/graph_api.py) against its specification.

The Neo4j property graph is modelled as association lists keyed by the
`id` properties the Cypher statements match on.  Cypher `MERGE … SET`
becomes an in-place upsert that rewrites the listed properties and keeps
all others (in particular, re-importing an entity keeps a previously
written embedding, exactly as `SET` does).  `MATCH … SET` becomes an
update of all entries whose key matches, touching nothing when no entry
matches — an unmatched `MATCH` is not an error in Cypher, so it raises
nothing at the driver.  External services (the Gemini embedding API, the
vector index) are oracles passed in as function arguments.  Numeric
properties use `ℚ` for Neo4j floats and `Int`/`Nat` for Neo4j integers.
-/

/-- A stored embedding vector (Neo4j list-of-float property). -/
abbrev EmbVec := List ℚ

/-- One row of `entities.parquet` as accessed by the code: `row['id']` is
required, every other column is read with `row.get(…)` (or guarded by a
`try`), hence optional. -/
structure EntityRow where
  id : String
  name : Option String
  title : Option String
  type : Option String
  description : Option String
  degree : Option Int
  human_readable_id : Option Int
deriving DecidableEq

/-- One row of `relationships.parquet`: `row['id']`, `row['source']`,
`row['target']` are accessed unconditionally in `import_relationships`,
the rest via `row.get(…)`. -/
structure RelRow where
  id : String
  source : String
  target : String
  description : Option String
  weight : Option ℚ
  human_readable_id : Option Int
deriving DecidableEq

/-- One row of `documents.parquet`. -/
structure DocRow where
  id : String
  title : Option String
  raw_content : Option String
deriving DecidableEq

/-- One row of `communities.parquet`. -/
structure CommunityRow where
  id : String
  title : Option String
  level : Option Int
  period : Option String
deriving DecidableEq

/-- Properties of an `Entity` node.  The five core properties are written
by `import_entities`; the three embedding properties only by
`add_entity_embeddings` (`MERGE … SET` leaves them untouched on
re-import). -/
structure EntityProps where
  name : String
  type : String
  description : String
  degree : Int
  human_readable_id : Int
  embedding : Option EmbVec
  embedding_text : Option String
  embedding_dimension : Option Nat
deriving DecidableEq

/-- Properties of a `RELATES_TO` edge. -/
structure RelProps where
  description : String
  weight : ℚ
  human_readable_id : Int
  embedding : Option EmbVec
  embedding_text : Option String
  embedding_dimension : Option Nat
deriving DecidableEq

/-- Properties of a `Document` node. -/
structure DocProps where
  title : String
  raw_content : String
deriving DecidableEq

/-- Properties of a `Community` node (report enrichment fields are outside
the modelled import stages). -/
structure CommunityProps where
  title : String
  level : Int
  period : String
deriving DecidableEq

/-- The store: a node/edge table per label, keyed by the property the
Cypher statements match on (`id` for nodes; the matched
source-id/target-id pair plus the edge `id` for `RELATES_TO`, since
`MERGE (source)-[r:RELATES_TO {id: $id}]->(target)` deduplicates on that
triple).  `belongs` records `BELONGS_TO` entity-id/community-id pairs. -/
abbrev KTable (K V : Type) := List (K × V)

/-- First-match association lookup (Cypher `MATCH (n {id: $id})` under the
uniqueness constraint). -/
def alookup {K V : Type} [DecidableEq K] (k : K) : KTable K V → Option V
  | [] => none
  | (k', v) :: t => if k' = k then some v else alookup k t

/-- Merge-or-create write: rewrite the entry at `k` through `f` (which
sees the old value) or append a fresh entry built from `f none`.  This is
`MERGE (n {id: $id}) SET …`. -/
def upsertWith {K V : Type} [DecidableEq K] (k : K) (f : Option V → V) :
    KTable K V → KTable K V
  | [] => [(k, f none)]
  | (k', v) :: t => if k' = k then (k', f (some v)) :: t else (k', v) :: upsertWith k f t

/-- Update every entry whose key satisfies `p` (Cypher `MATCH … SET`
touches all matches and nothing else). -/
def updateWhere {K V : Type} (p : K → Bool) (f : V → V) (s : KTable K V) : KTable K V :=
  s.map fun kv => cond (p kv.1) (kv.1, f kv.2) kv

/-- The key column of a table. -/
def keysOf {K V : Type} (s : KTable K V) : List K :=
  s.map Prod.fst

section RowImport

variable {Row K F G V : Type} [DecidableEq K]

/-- One row of a generic import stage.  `c` is the row's write guard (for
relationships: both endpoint `MATCH`es succeed; `true` for node kinds),
`key` the merge key, `fr` the properties listed in `SET`, `g` the
properties the statement does not mention (preserved from the old value),
and `mkv` assembles the stored record. -/
def applyRow (c : Row → Bool) (key : Row → K) (fr : Row → F) (g : Option V → G)
    (mkv : F → G → V) (s : KTable K V) (r : Row) : KTable K V :=
  if c r then upsertWith (key r) (fun o => mkv (fr r) (g o)) s else s

/-- A whole import stage: the source's `for _, row in df.iterrows()` loop. -/
def runRows (c : Row → Bool) (key : Row → K) (fr : Row → F) (g : Option V → G)
    (mkv : F → G → V) (s : KTable K V) (rows : List Row) : KTable K V :=
  rows.foldl (applyRow c key fr g mkv) s

/-- The last row of the batch that writes to key `k` (its `SET` wins). -/
def lastHit (c : Row → Bool) (key : Row → K) (k : K) : List Row → Option Row
  | [] => none
  | r :: rs =>
    match lastHit c key k rs with
    | some x => some x
    | none => if c r ∧ key r = k then some r else none

end RowImport

section RowImportLemmas

variable {Row K F G V : Type} [DecidableEq K]
variable (c : Row → Bool) (key : Row → K) (fr : Row → F) (g : Option V → G)
variable (mkv : F → G → V)

theorem keysOf_cons (k₀ : K) (v : V) (t : KTable K V) :
    keysOf ((k₀, v) :: t) = k₀ :: keysOf t := rfl

theorem alookup_upsertWith_self (k : K) (f : Option V → V) (s : KTable K V) :
    alookup k (upsertWith k f s) = some (f (alookup k s)) := by
  induction s with
  | nil => simp [upsertWith, alookup]
  | cons hd t ih =>
    obtain ⟨k', v⟩ := hd
    by_cases h : k' = k
    · subst h; simp [upsertWith, alookup]
    · simp [upsertWith, alookup, h, ih]

theorem alookup_upsertWith_ne (k k' : K) (hk : k' ≠ k) (f : Option V → V)
    (s : KTable K V) :
    alookup k' (upsertWith k f s) = alookup k' s := by
  induction s with
  | nil => simp [upsertWith, alookup, Ne.symm hk]
  | cons hd t ih =>
    obtain ⟨k₀, v⟩ := hd
    by_cases h : k₀ = k
    · subst h; simp [upsertWith, alookup, Ne.symm hk]
    · simp [upsertWith, alookup, h, ih]

theorem keysOf_upsertWith_of_mem (k : K) (f : Option V → V) (s : KTable K V)
    (h : k ∈ keysOf s) : keysOf (upsertWith k f s) = keysOf s := by
  induction s with
  | nil => exact absurd h (List.not_mem_nil k)
  | cons hd t ih =>
    obtain ⟨k₀, v⟩ := hd
    by_cases hk : k₀ = k
    · subst hk
      simp [upsertWith, keysOf_cons]
    · have hm : k ∈ keysOf t := by
        rcases List.mem_cons.mp (keysOf_cons k₀ v t ▸ h) with he | ht
        · exact absurd he.symm hk
        · exact ht
      simp only [upsertWith, if_neg hk, keysOf_cons, ih hm]

theorem keysOf_upsertWith_of_not_mem (k : K) (f : Option V → V) (s : KTable K V)
    (h : k ∉ keysOf s) : keysOf (upsertWith k f s) = keysOf s ++ [k] := by
  induction s with
  | nil => rfl
  | cons hd t ih =>
    obtain ⟨k₀, v⟩ := hd
    by_cases hk : k₀ = k
    · subst hk
      exact absurd (keysOf_cons k₀ v t ▸ List.mem_cons_self k₀ (keysOf t)) h
    · have hm : k ∉ keysOf t := fun hmt =>
        h (keysOf_cons k₀ v t ▸ List.mem_cons_of_mem k₀ hmt)
      simp only [upsertWith, if_neg hk, keysOf_cons, ih hm, List.cons_append]

theorem alookup_isSome_iff_mem (k : K) (s : KTable K V) :
    (alookup k s).isSome = true ↔ k ∈ keysOf s := by
  induction s with
  | nil => simp [alookup, keysOf]
  | cons hd t ih =>
    obtain ⟨k₀, v⟩ := hd
    by_cases h : k₀ = k
    · subst h; simp [alookup, keysOf_cons]
    · rw [keysOf_cons]
      simp only [alookup, if_neg h, List.mem_cons, ih]
      constructor
      · exact fun hm => Or.inr hm
      · rintro (he | hm)
        · exact absurd he.symm h
        · exact hm

theorem alookup_eq_none_of_not_mem (k : K) (s : KTable K V) (h : k ∉ keysOf s) :
    alookup k s = none := by
  cases ho : alookup k s with
  | none => rfl
  | some v =>
    exact absurd ((alookup_isSome_iff_mem k s).mp (by rw [ho]; rfl)) h

theorem nodup_keysOf_upsertWith (k : K) (f : Option V → V) (s : KTable K V)
    (h : (keysOf s).Nodup) : (keysOf (upsertWith k f s)).Nodup := by
  by_cases hm : k ∈ keysOf s
  · rw [keysOf_upsertWith_of_mem k f s hm]; exact h
  · rw [keysOf_upsertWith_of_not_mem k f s hm]
    simp [List.nodup_append, h, hm]

theorem alookup_runRows (hg : ∀ a b, g (some (mkv a b)) = b) (rows : List Row)
    (s : KTable K V) (k : K) :
    alookup k (runRows c key fr g mkv s rows) =
      match lastHit c key k rows with
      | some r => some (mkv (fr r) (g (alookup k s)))
      | none => alookup k s := by
  induction rows generalizing s with
  | nil => rfl
  | cons r rs ih =>
    have step : runRows c key fr g mkv s (r :: rs) =
        runRows c key fr g mkv (applyRow c key fr g mkv s r) rs := rfl
    rw [step, ih]
    rcases hrs : lastHit c key k rs with _ | r'
    · unfold lastHit
      rw [hrs]
      by_cases hc : c r
      · by_cases hk : key r = k
        · subst hk
          simp [applyRow, hc, alookup_upsertWith_self]
        · simp [applyRow, hc, hk, alookup_upsertWith_ne _ _ (Ne.symm hk)]
      · simp [applyRow, hc]
    · unfold lastHit
      rw [hrs]
      by_cases hc : c r
      · by_cases hk : key r = k
        · subst hk
          simp [applyRow, hc, alookup_upsertWith_self, hg]
        · simp [applyRow, hc, alookup_upsertWith_ne _ _ (Ne.symm hk)]
      · simp [applyRow, hc]

theorem keysOf_applyRow_of_mem (r : Row) (s : KTable K V)
    (h : c r = true → key r ∈ keysOf s) :
    keysOf (applyRow c key fr g mkv s r) = keysOf s := by
  unfold applyRow
  by_cases hc : c r
  · rw [if_pos hc, keysOf_upsertWith_of_mem _ _ _ (h hc)]
  · rw [if_neg hc]

theorem keysOf_runRows_of_mem (rows : List Row) (s : KTable K V)
    (h : ∀ r ∈ rows, c r = true → key r ∈ keysOf s) :
    keysOf (runRows c key fr g mkv s rows) = keysOf s := by
  induction rows generalizing s with
  | nil => rfl
  | cons r rs ih =>
    have h1 : keysOf (applyRow c key fr g mkv s r) = keysOf s :=
      keysOf_applyRow_of_mem c key fr g mkv r s (h r (List.mem_cons_self r rs))
    have step : runRows c key fr g mkv s (r :: rs) =
        runRows c key fr g mkv (applyRow c key fr g mkv s r) rs := rfl
    rw [step, ih _ (fun r' hr' hc' => by
      rw [h1]; exact h r' (List.mem_cons_of_mem r hr') hc'), h1]

theorem mem_keysOf_applyRow_mono (k : K) (r : Row) (s : KTable K V)
    (h : k ∈ keysOf s) : k ∈ keysOf (applyRow c key fr g mkv s r) := by
  unfold applyRow
  split
  · by_cases hm : key r ∈ keysOf s
    · rw [keysOf_upsertWith_of_mem _ _ _ hm]; exact h
    · rw [keysOf_upsertWith_of_not_mem _ _ _ hm]
      exact List.mem_append_left _ h
  · exact h

theorem mem_keysOf_applyRow_self (r : Row) (s : KTable K V) (hc : c r = true) :
    key r ∈ keysOf (applyRow c key fr g mkv s r) := by
  unfold applyRow
  rw [if_pos hc]
  by_cases hm : key r ∈ keysOf s
  · rw [keysOf_upsertWith_of_mem _ _ _ hm]; exact hm
  · rw [keysOf_upsertWith_of_not_mem _ _ _ hm]
    exact List.mem_append_right _ (List.mem_singleton.mpr rfl)

theorem mem_keysOf_runRows_mono (k : K) (rows : List Row) (s : KTable K V)
    (h : k ∈ keysOf s) : k ∈ keysOf (runRows c key fr g mkv s rows) := by
  induction rows generalizing s with
  | nil => exact h
  | cons r rs ih => exact ih _ (mem_keysOf_applyRow_mono c key fr g mkv k r s h)

theorem mem_keysOf_runRows (r : Row) (rows : List Row) (s : KTable K V)
    (hc : c r = true) (hr : r ∈ rows) :
    key r ∈ keysOf (runRows c key fr g mkv s rows) := by
  induction rows generalizing s with
  | nil => exact absurd hr (List.not_mem_nil r)
  | cons r₀ rs ih =>
    rcases List.mem_cons.mp hr with h | h
    · subst h
      exact mem_keysOf_runRows_mono c key fr g mkv _ rs _
        (mem_keysOf_applyRow_self c key fr g mkv r s hc)
    · exact ih (applyRow c key fr g mkv s r₀) h

theorem nodup_keysOf_applyRow (r : Row) (s : KTable K V)
    (h : (keysOf s).Nodup) : (keysOf (applyRow c key fr g mkv s r)).Nodup := by
  unfold applyRow
  split
  · exact nodup_keysOf_upsertWith _ _ _ h
  · exact h

theorem nodup_keysOf_runRows (rows : List Row) (s : KTable K V)
    (h : (keysOf s).Nodup) : (keysOf (runRows c key fr g mkv s rows)).Nodup := by
  induction rows generalizing s with
  | nil => exact h
  | cons r rs ih => exact ih _ (nodup_keysOf_applyRow c key fr g mkv r s h)

theorem ktable_ext (s₁ s₂ : KTable K V) (hk : keysOf s₁ = keysOf s₂)
    (hl : ∀ k, alookup k s₁ = alookup k s₂) (hn : (keysOf s₁).Nodup) :
    s₁ = s₂ := by
  induction s₁ generalizing s₂ with
  | nil =>
    cases s₂ with
    | nil => rfl
    | cons hd₂ t₂ =>
      obtain ⟨k₂, v₂⟩ := hd₂
      rw [keysOf_cons] at hk
      exact absurd hk (by simp [keysOf])
  | cons hd t ih =>
    obtain ⟨k₀, v₀⟩ := hd
    cases s₂ with
    | nil =>
      rw [keysOf_cons] at hk
      exact absurd hk (by simp [keysOf])
    | cons hd₂ t₂ =>
      obtain ⟨k₂, v₂⟩ := hd₂
      rw [keysOf_cons, keysOf_cons] at hk
      injection hk with hke hkt
      subst hke
      have hv : v₀ = v₂ := by
        have := hl k₀
        simpa [alookup] using this
      subst hv
      rw [keysOf_cons] at hn
      have hn₀ : k₀ ∉ keysOf t := (List.nodup_cons.mp hn).1
      have hnt : (keysOf t).Nodup := (List.nodup_cons.mp hn).2
      have ht : t = t₂ := by
        apply ih t₂ hkt _ hnt
        intro k
        by_cases hkk₀ : k₀ = k
        · subst hkk₀
          rw [alookup_eq_none_of_not_mem k₀ t hn₀,
            alookup_eq_none_of_not_mem k₀ t₂ (hkt ▸ hn₀)]
        · have := hl k
          simpa [alookup, hkk₀] using this
      rw [ht]

theorem runRows_idem (hg : ∀ a b, g (some (mkv a b)) = b) (s : KTable K V)
    (rows : List Row) (hn : (keysOf s).Nodup) :
    runRows c key fr g mkv (runRows c key fr g mkv s rows) rows =
      runRows c key fr g mkv s rows := by
  have hkeys : keysOf (runRows c key fr g mkv (runRows c key fr g mkv s rows) rows) =
      keysOf (runRows c key fr g mkv s rows) :=
    keysOf_runRows_of_mem c key fr g mkv rows _
      (fun r hr hc => mem_keysOf_runRows c key fr g mkv r rows s hc hr)
  apply ktable_ext _ _ hkeys
  · intro k
    rw [alookup_runRows c key fr g mkv hg rows _ k]
    rcases h : lastHit c key k rows with _ | r
    · rfl
    · rw [alookup_runRows c key fr g mkv hg rows s k, h, hg]
  · rw [hkeys]
    exact nodup_keysOf_runRows c key fr g mkv rows s hn

end RowImportLemmas

/-- The three embedding properties.  `import_entities` / `import_relationships`
never mention them in `SET`, so a re-import preserves them. -/
structure EmbFields where
  embedding : Option EmbVec
  embedding_text : Option String
  embedding_dimension : Option Nat
deriving DecidableEq

/-- The five properties listed in `import_entities`' `SET` clause
(src/export_to_neo4j.py lines 60-74), with the source's `row.get`
defaults: `name` falls back to the `title` column and then `''`. -/
structure EntityCore where
  name : String
  type : String
  description : String
  degree : Int
  human_readable_id : Int
deriving DecidableEq

def entityCoreOfRow (r : EntityRow) : EntityCore :=
  { name := r.name.getD (r.title.getD "")
    type := r.type.getD ""
    description := r.description.getD ""
    degree := r.degree.getD 0
    human_readable_id := r.human_readable_id.getD 0 }

def entityEmbPart : Option EntityProps → EmbFields
  | none => ⟨none, none, none⟩
  | some p => ⟨p.embedding, p.embedding_text, p.embedding_dimension⟩

def mkEntityProps (core : EntityCore) (e : EmbFields) : EntityProps :=
  ⟨core.name, core.type, core.description, core.degree, core.human_readable_id,
   e.embedding, e.embedding_text, e.embedding_dimension⟩

theorem entityEmbPart_mk (a : EntityCore) (b : EmbFields) :
    entityEmbPart (some (mkEntityProps a b)) = b := rfl

/-- The three properties in `import_relationships`' `SET` clause
(src/export_to_neo4j.py lines 84-98): `weight` defaults to `1.0`. -/
structure RelCore where
  description : String
  weight : ℚ
  human_readable_id : Int
deriving DecidableEq

def relCoreOfRow (r : RelRow) : RelCore :=
  { description := r.description.getD ""
    weight := r.weight.getD 1
    human_readable_id := r.human_readable_id.getD 0 }

def relEmbPart : Option RelProps → EmbFields
  | none => ⟨none, none, none⟩
  | some p => ⟨p.embedding, p.embedding_text, p.embedding_dimension⟩

def mkRelProps (core : RelCore) (e : EmbFields) : RelProps :=
  ⟨core.description, core.weight, core.human_readable_id,
   e.embedding, e.embedding_text, e.embedding_dimension⟩

theorem relEmbPart_mk (a : RelCore) (b : EmbFields) :
    relEmbPart (some (mkRelProps a b)) = b := rfl

/-- `import_documents` (src/export_to_neo4j.py lines 39-53): `title`
defaults to the `id` column, `raw_content` is truncated to 1000
characters at write time. -/
def docPropsOfRow (r : DocRow) : DocProps :=
  { title := r.title.getD r.id
    raw_content := (r.raw_content.getD "").take 1000 }

/-- `import_communities` (src/export_to_neo4j.py lines 105-121). -/
def communityPropsOfRow (r : CommunityRow) : CommunityProps :=
  { title := r.title.getD ""
    level := r.level.getD 0
    period := r.period.getD "" }

/-- The property graph the scripts read and write: one table per node
label keyed by `id`, the `RELATES_TO` table keyed by
(source id, target id, edge id), and the `BELONGS_TO` pair set. -/
@[ext]
structure GraphState where
  documents : KTable String DocProps
  entities : KTable String EntityProps
  rels : KTable (String × String × String) RelProps
  communities : KTable String CommunityProps
  belongs : List (String × String)
deriving DecidableEq

def emptyGraphState : GraphState :=
  { documents := [], entities := [], rels := [], communities := [], belongs := [] }

/-- `import_documents`: one `MERGE (d:Document {id: $id}) SET …` per row. -/
def importDocuments (s : GraphState) (rows : List DocRow) : GraphState :=
  { s with documents :=
      (runRows (fun _ => true) (fun r => r.id) docPropsOfRow (fun _ => ())
        (fun p _ => p) s.documents rows) }

/-- `import_entities`: one `MERGE (e:Entity {id: $id}) SET name, type,
description, degree, human_readable_id` per row; embedding properties of
an existing node are untouched. -/
def importEntities (s : GraphState) (rows : List EntityRow) : GraphState :=
  { s with entities :=
      (runRows (fun _ => true) (fun r => r.id) entityCoreOfRow entityEmbPart
        mkEntityProps s.entities rows) }

/-- The write guard of one `import_relationships` row: the edge is merged
only when both `MATCH (source:Entity {id: $source})` and
`MATCH (target:Entity {id: $target})` produce a row. -/
def relGuard (ents : KTable String EntityProps) (r : RelRow) : Bool :=
  (alookup r.source ents).isSome && (alookup r.target ents).isSome

/-- `import_relationships` (src/export_to_neo4j.py lines 77-103).  The
returned count is the source's `successful` counter.  In Cypher a `MATCH`
that finds nothing simply yields zero rows — it is not an error — so
`session.run` raises nothing for a row whose endpoints are absent, the
`except` branch (the source's "Skip relationships where entities don't
exist") is never taken for such rows, and `successful += 1` runs for
every well-typed row: the counter equals the total row count even though
no edge is merged for rows failing `relGuard`. -/
def importRelationships (s : GraphState) (rows : List RelRow) : GraphState × Nat :=
  ({ s with rels :=
      (runRows (relGuard s.entities) (fun r => (r.source, r.target, r.id)) relCoreOfRow
        relEmbPart mkRelProps s.rels rows) },
   rows.length)

/-- `import_communities`: one `MERGE (c:Community {id: $id}) SET …` per row. -/
def importCommunities (s : GraphState) (rows : List CommunityRow) : GraphState :=
  { s with communities :=
      (runRows (fun _ => true) (fun r => r.id) communityPropsOfRow (fun _ => ())
        (fun p _ => p) s.communities rows) }

/-- The import stages of `main` in their fixed order (documents →
entities → relationships → communities). -/
def importPipeline (s : GraphState) (docs : List DocRow) (ents : List EntityRow)
    (rels : List RelRow) (comms : List CommunityRow) : GraphState :=
  importCommunities ((importRelationships (importEntities (importDocuments s docs) ents) rels).1) comms

/-- C2: re-running the import pipeline on the same rows leaves the graph
exactly as one run left it.  Every write is `MERGE` keyed on `id` plus
`SET`, so the second run rewrites each node/edge in place with the same
property values and creates nothing new — no duplicate nodes or edges.
The key-uniqueness hypotheses are the uniqueness constraints that
`create_constraints` declares on `id`. -/
theorem importPipeline_idempotent (s : GraphState) (docs : List DocRow)
    (ents : List EntityRow) (rels : List RelRow) (comms : List CommunityRow)
    (hd : (keysOf s.documents).Nodup) (he : (keysOf s.entities).Nodup)
    (hr : (keysOf s.rels).Nodup) (hc : (keysOf s.communities).Nodup) :
    importPipeline (importPipeline s docs ents rels comms) docs ents rels comms =
      importPipeline s docs ents rels comms := by
  have hE : runRows (fun _ => true) (fun r => r.id) entityCoreOfRow entityEmbPart
      mkEntityProps
      (runRows (fun _ => true) (fun r => r.id) entityCoreOfRow entityEmbPart
        mkEntityProps s.entities ents) ents =
      runRows (fun _ => true) (fun r => r.id) entityCoreOfRow entityEmbPart
        mkEntityProps s.entities ents :=
    runRows_idem _ _ _ _ _ entityEmbPart_mk s.entities ents he
  apply GraphState.ext
  · exact runRows_idem _ _ _ _ _ (fun _ _ => rfl) s.documents docs hd
  · exact hE
  · show runRows
        (relGuard (runRows (fun _ => true) (fun r => r.id) entityCoreOfRow entityEmbPart
          mkEntityProps
          (runRows (fun _ => true) (fun r => r.id) entityCoreOfRow entityEmbPart
            mkEntityProps s.entities ents) ents))
        (fun r => (r.source, r.target, r.id)) relCoreOfRow relEmbPart mkRelProps
        (runRows
          (relGuard (runRows (fun _ => true) (fun r => r.id) entityCoreOfRow entityEmbPart
            mkEntityProps s.entities ents))
          (fun r => (r.source, r.target, r.id)) relCoreOfRow relEmbPart mkRelProps
          s.rels rels) rels =
      runRows
        (relGuard (runRows (fun _ => true) (fun r => r.id) entityCoreOfRow entityEmbPart
          mkEntityProps s.entities ents))
        (fun r => (r.source, r.target, r.id)) relCoreOfRow relEmbPart mkRelProps
        s.rels rels
    rw [hE]
    exact runRows_idem _ _ _ _ _ relEmbPart_mk s.rels rels hr
  · exact runRows_idem _ _ _ _ _ (fun _ _ => rfl) s.communities comms hc
  · rfl

/-- Witness for C2: a concrete replay on one row of each kind. -/
theorem importPipeline_idempotent_witness :
    importPipeline
        (importPipeline emptyGraphState [⟨"d1", some "Doc", some "body"⟩]
          [⟨"e1", some "Acme", some "Acme Corp", some "ORG", some "a company", some 2, some 1⟩]
          [⟨"r1", "e1", "e1", some "self", some 1, some 1⟩]
          [⟨"c1", some "Community 1", some 0, some "2024"⟩])
        [⟨"d1", some "Doc", some "body"⟩]
        [⟨"e1", some "Acme", some "Acme Corp", some "ORG", some "a company", some 2, some 1⟩]
        [⟨"r1", "e1", "e1", some "self", some 1, some 1⟩]
        [⟨"c1", some "Community 1", some 0, some "2024"⟩] =
      importPipeline emptyGraphState [⟨"d1", some "Doc", some "body"⟩]
        [⟨"e1", some "Acme", some "Acme Corp", some "ORG", some "a company", some 2, some 1⟩]
        [⟨"r1", "e1", "e1", some "self", some 1, some 1⟩]
        [⟨"c1", some "Community 1", some 0, some "2024"⟩] :=
  importPipeline_idempotent emptyGraphState _ _ _ _
    List.nodup_nil List.nodup_nil List.nodup_nil List.nodup_nil

/-- C1 (evaluation at the failing input): importing a single relationship
row whose `source` and `target` match no Entity node creates no
`RELATES_TO` edge — but the reported count is 1, not 0, because the
unmatched `MATCH` is not a driver error and the `except` path is never
taken. -/
theorem importRelationships_missing_endpoint_eval :
    importRelationships emptyGraphState [⟨"r1", "s1", "t1", none, none, none⟩] =
      (emptyGraphState, 1) := rfl

theorem alookup_updateWhere {K V : Type} [DecidableEq K] (p : K → Bool) (f : V → V)
    (s : KTable K V) (k : K) :
    alookup k (updateWhere p f s) =
      if p k then (alookup k s).map f else alookup k s := by
  induction s with
  | nil => cases hp : p k <;> simp [updateWhere, alookup, hp]
  | cons hd t ih =>
    obtain ⟨k₀, v⟩ := hd
    simp only [updateWhere, List.map_cons] at ih ⊢
    by_cases hk : k₀ = k
    · subst hk
      cases hp : p k₀ <;> simp [alookup, hp]
    · cases hp : p k₀ <;> simp [alookup, hp, hk, ih]

theorem filter_key_eq_nil {K V : Type} [DecidableEq K] (k : K) (s : KTable K V)
    (h : alookup k s = none) :
    s.filter (fun kv => decide (kv.1 = k)) = [] := by
  induction s with
  | nil => rfl
  | cons hd t ih =>
    obtain ⟨k₀, v⟩ := hd
    by_cases hk : k₀ = k
    · subst hk
      simp [alookup] at h
    · simp only [alookup, if_neg hk] at h
      simpa [List.filter, hk] using ih h

theorem updateWhere_key_eq_self {K V : Type} [DecidableEq K] (k : K) (f : V → V)
    (s : KTable K V) (h : alookup k s = none) :
    updateWhere (fun k' => decide (k' = k)) f s = s := by
  induction s with
  | nil => rfl
  | cons hd t ih =>
    obtain ⟨k₀, v⟩ := hd
    by_cases hk : k₀ = k
    · subst hk
      simp [alookup] at h
    · simp only [alookup, if_neg hk] at h
      simpa [updateWhere, hk] using ih h

/-- `SET e.embedding = $embedding, e.embedding_text = $text,
e.embedding_dimension = $dimension` with `dimension=len(embedding)`
(src/add_embeddings.py lines 63-74). -/
def setEmbFields (v : EmbVec) (text : String) (p : EntityProps) : EntityProps :=
  { p with embedding := some v, embedding_text := some text,
           embedding_dimension := some v.length }

/-- Same `SET`, on a `RELATES_TO` edge (src/add_embeddings.py lines 121-132). -/
def setRelEmbFields (v : EmbVec) (text : String) (p : RelProps) : RelProps :=
  { p with embedding := some v, embedding_text := some text,
           embedding_dimension := some v.length }

/-- `f"{title} ({entity_type}): {description}"` (src/add_embeddings.py
line 56; note the code reads the row's `title` column, not the node's
`name` property). -/
def mkEntityText (title : String) (type : String) (description : String) : String :=
  s!"{title} ({type}): {description}"

/-- `f"{source} {description} {target}"` (src/add_embeddings.py line 114). -/
def mkRelText (source : String) (description : String) (target : String) : String :=
  s!"{source} {description} {target}"

/-- One iteration of `add_entity_embeddings`' loop (src/add_embeddings.py
lines 48-86): `row['title']` raises a caught KeyError when the column is
absent (the row is skipped); `if embedding:` is Python truthiness, so a
missing or empty vector alike skips the write; `MATCH (e:Entity {id:
$id}) SET …` updates every matching node, and `result.single()` yields a
record — incrementing `success_count` — exactly when one node matched
(with two or more matches the v5 driver raises, caught by the `except`,
after the server already applied the `SET`). -/
def processEntityEmbeddingRow (oracle : String → Option EmbVec)
    (st : GraphState × Nat) (r : EntityRow) : GraphState × Nat :=
  match r.title with
  | none => st
  | some title =>
    match oracle (mkEntityText title (r.type.getD "") (r.description.getD "")) with
    | none => st
    | some v =>
      if v.isEmpty then st
      else
        ({ st.1 with entities :=
            (updateWhere (fun k => decide (k = r.id))
              (setEmbFields v (mkEntityText title (r.type.getD "") (r.description.getD "")))
              st.1.entities) },
         if (st.1.entities.filter (fun kv => decide (kv.1 = r.id))).length = 1
           then st.2 + 1 else st.2)

/-- `add_entity_embeddings`: the loop over `entities.parquet`, starting
from `success_count = 0`. -/
def addEntityEmbeddings (oracle : String → Option EmbVec) (rows : List EntityRow)
    (s : GraphState) : GraphState × Nat :=
  rows.foldl (processEntityEmbeddingRow oracle) (s, 0)

/-- One iteration of `add_relationship_embeddings`' loop
(src/add_embeddings.py lines 106-141): the edge is matched by `id` alone
(`MATCH ()-[r:RELATES_TO {id: $id}]->()`), so every stored edge whose
`id` component matches is updated. -/
def processRelEmbeddingRow (oracle : String → Option EmbVec)
    (st : GraphState × Nat) (r : RelRow) : GraphState × Nat :=
  match oracle (mkRelText r.source (r.description.getD "") r.target) with
  | none => st
  | some v =>
    if v.isEmpty then st
    else
      ({ st.1 with rels :=
          (updateWhere (fun k => decide (k.2.2 = r.id))
            (setRelEmbFields v (mkRelText r.source (r.description.getD "") r.target))
            st.1.rels) },
       if (st.1.rels.filter (fun kv => decide (kv.1.2.2 = r.id))).length = 1
         then st.2 + 1 else st.2)

/-- `add_relationship_embeddings`: the loop over `relationships.parquet`. -/
def addRelationshipEmbeddings (oracle : String → Option EmbVec) (rows : List RelRow)
    (s : GraphState) : GraphState × Nat :=
  rows.foldl (processRelEmbeddingRow oracle) (s, 0)

/-- The dimension/vector agreement the spec states for enriched entities. -/
def dimOK (e : EntityProps) : Prop :=
  ∀ v, e.embedding = some v → e.embedding_dimension = some v.length

theorem setEmbFields_dimOK (v : EmbVec) (t : String) (p : EntityProps) :
    dimOK (setEmbFields v t p) := by
  intro v' hv'
  have hvv : v = v' := by simpa [setEmbFields] using hv'
  subst hvv
  rfl

theorem processEntityEmbeddingRow_dimOK (oracle : String → Option EmbVec)
    (st : GraphState × Nat) (r : EntityRow)
    (h : ∀ kv ∈ st.1.entities, dimOK kv.2) :
    ∀ kv ∈ (processEntityEmbeddingRow oracle st r).1.entities, dimOK kv.2 := by
  unfold processEntityEmbeddingRow
  split
  · exact h
  · split
    · exact h
    · split
      · exact h
      · intro kv hkv
        replace hkv : kv ∈ updateWhere (fun k => decide (k = r.id)) _ st.1.entities := hkv
        simp only [updateWhere, List.mem_map] at hkv
        obtain ⟨kv₀, hkv₀, hmap⟩ := hkv
        rw [← hmap]
        cases hd : decide (kv₀.1 = r.id)
        · simpa [hd] using h kv₀ hkv₀
        · simpa [hd] using setEmbFields_dimOK _ _ kv₀.2

/-- C5: after `add_entity_embeddings`, every Entity carrying an embedding
has `embedding_dimension` equal to the length of that vector — the write
stores `dimension=len(embedding)` in the same `SET` as the vector, and
the hypothesis (which holds trivially for freshly imported nodes, whose
embedding is absent) says untouched entities already agreed. -/
theorem addEntityEmbeddings_dimension (oracle : String → Option EmbVec)
    (rows : List EntityRow) (s : GraphState)
    (h : ∀ kv ∈ s.entities, dimOK kv.2) :
    ∀ kv ∈ (addEntityEmbeddings oracle rows s).1.entities, dimOK kv.2 := by
  have H : ∀ (st : GraphState × Nat), (∀ kv ∈ st.1.entities, dimOK kv.2) →
      ∀ kv ∈ (rows.foldl (processEntityEmbeddingRow oracle) st).1.entities,
        dimOK kv.2 := by
    induction rows with
    | nil => exact fun st hst => hst
    | cons r rs ih =>
      intro st hst
      exact ih _ (processEntityEmbeddingRow_dimOK oracle st r hst)
  exact H (s, 0) h

/-- Witness for C5: the concrete enriched entity of a one-row run. -/
theorem addEntityEmbeddings_dimension_witness :
    dimOK ⟨"Acme", "ORG", "a company", 0, 0, some [(1 : ℚ), 2],
      some (mkEntityText "Acme" "ORG" "a company"), some 2⟩ :=
  addEntityEmbeddings_dimension (fun _ => some [(1 : ℚ), 2])
    [⟨"e1", none, some "Acme", some "ORG", some "a company", none, none⟩]
    { emptyGraphState with entities :=
        [("e1", ⟨"Acme", "ORG", "a company", 0, 0, none, none, none⟩)] }
    (by
      intro kv hkv v hv
      rw [List.mem_singleton.mp hkv] at hv
      simp at hv)
    ("e1", ⟨"Acme", "ORG", "a company", 0, 0, some [(1 : ℚ), 2],
      some (mkEntityText "Acme" "ORG" "a company"), some 2⟩)
    (by decide)

/-- C9: an enrichment row whose `id` matches no Entity node changes
nothing — the `MATCH … SET` touches no node, `result.single()` yields no
record so `success_count` stays put — even when the provider returned a
vector (the `oracle` is arbitrary here). -/
theorem processEntityEmbeddingRow_unknown_id (oracle : String → Option EmbVec)
    (st : GraphState × Nat) (r : EntityRow)
    (h : alookup r.id st.1.entities = none) :
    processEntityEmbeddingRow oracle st r = st := by
  unfold processEntityEmbeddingRow
  split
  · rfl
  · split
    · rfl
    · split
      · rfl
      · rw [updateWhere_key_eq_self r.id _ _ h, filter_key_eq_nil r.id _ h]
        rfl

/-- Witness for C9: a provider that does return a vector, a row naming an
absent entity id, and an unchanged state/counter. -/
theorem processEntityEmbeddingRow_unknown_id_witness :
    processEntityEmbeddingRow (fun _ => some [(1 : ℚ)]) (emptyGraphState, 0)
        ⟨"ghost", none, some "Ghost", some "ORG", some "gone", none, none⟩ =
      (emptyGraphState, 0) :=
  processEntityEmbeddingRow_unknown_id _ _ _ rfl

/-- C6 (amended): what the enrichment writes as `embedding_text`.
For an Entity it is `"{title} ({type}): {description}"` built from the
row's `title` column (src/add_embeddings.py lines 51-56), which coincides
with the `"{name} ({type}): {description}"` pattern over the imported
node's `name` property exactly when the row carries no separate `name`
column (then `import_entities` also used `title` as the node name); for a
Relationship it is `"{source} {description} {target}"`. -/
theorem embeddingText_written (oracle : String → Option EmbVec) (s : GraphState)
    (n : Nat) (r : EntityRow) (t : String) (v : EmbVec) (rr : RelRow) (w : EmbVec)
    (ht : r.title = some t)
    (hv : oracle (mkEntityText t (r.type.getD "") (r.description.getD "")) = some v)
    (hve : v.isEmpty = false)
    (hw : oracle (mkRelText rr.source (rr.description.getD "") rr.target) = some w)
    (hwe : w.isEmpty = false) :
    (alookup r.id (processEntityEmbeddingRow oracle (s, n) r).1.entities =
        (alookup r.id s.entities).map
          (setEmbFields v (mkEntityText t (r.type.getD "") (r.description.getD ""))))
    ∧ (r.name = none →
        mkEntityText t (r.type.getD "") (r.description.getD "") =
          mkEntityText (entityCoreOfRow r).name (entityCoreOfRow r).type
            (entityCoreOfRow r).description)
    ∧ (∀ k : String × String × String, k.2.2 = rr.id →
        alookup k (processRelEmbeddingRow oracle (s, n) rr).1.rels =
          (alookup k s.rels).map
            (setRelEmbFields w (mkRelText rr.source (rr.description.getD "") rr.target))) := by
  refine ⟨?_, ?_, ?_⟩
  · simp [processEntityEmbeddingRow, ht, hv, hve]
    rw [alookup_updateWhere]
    simp
  · intro hn
    simp [mkEntityText, entityCoreOfRow, hn, ht]
  · intro k hk
    simp [processRelEmbeddingRow, hw, hwe]
    rw [alookup_updateWhere]
    simp [hk]

/-- Witness for C6 (amended): a one-entity write observed through the
table lookup. -/
theorem embeddingText_written_witness :
    alookup "e1" (processEntityEmbeddingRow (fun _ => some [(1 : ℚ)])
        (emptyGraphState, 0)
        ⟨"e1", none, some "T", some "ORG", some "D", none, none⟩).1.entities =
      (alookup "e1" emptyGraphState.entities).map
        (setEmbFields [(1 : ℚ)] (mkEntityText "T" "ORG" "D")) :=
  (embeddingText_written (fun _ => some [(1 : ℚ)]) emptyGraphState 0
    ⟨"e1", none, some "T", some "ORG", some "D", none, none⟩ "T" [(1 : ℚ)]
    ⟨"r1", "A", "B", some "likes", none, none⟩ [(1 : ℚ)]
    rfl rfl rfl rfl rfl).1

/-- Counterexample to C6 as stated: a row carrying both a `name` and a
`title` column.  The imported node's `name` is `"Alice"` (the `name`
column wins in `import_entities`), but the enrichment builds the text
from the `title` column, so the stored `embedding_text` is
`"T1 (PERSON): D"`, not `"{name} ({type}): {description}"` of the node. -/
theorem embeddingText_name_counterexample :
    (addEntityEmbeddings (fun _ => some [(1 : ℚ)])
        [⟨"e1", some "Alice", some "T1", some "PERSON", some "D", none, none⟩]
        (importEntities emptyGraphState
          [⟨"e1", some "Alice", some "T1", some "PERSON", some "D", none, none⟩])).1.entities =
      [("e1", ⟨"Alice", "PERSON", "D", 0, 0, some [(1 : ℚ)],
        some "T1 (PERSON): D", some 1⟩)]
    ∧ "T1 (PERSON): D" ≠ mkEntityText "Alice" "PERSON" "D" := by
  constructor
  · decide
  · decide

/-- Contiguous-sublist test: `subList needle hay` is true when `needle`
occurs as a contiguous run inside `hay`. -/
def subList (needle : List Char) : List Char → Bool
  | [] => needle.isEmpty
  | c :: t => needle.isPrefixOf (c :: t) || subList needle t

/-- Per-character lower-casing (Cypher `toLower`, Python `str.lower()`;
ASCII-level case folding suffices for the modelled data). -/
def lowerStr (s : String) : String :=
  ⟨s.data.map Char.toLower⟩

/-- `toLower(hay) CONTAINS toLower(needle)`: Cypher's case-insensitive
substring test as used by `keyword_search_entities`. -/
def containsCI (hay needle : String) : Bool :=
  subList (lowerStr needle).data (lowerStr hay).data

theorem subList_nil (l : List Char) : subList [] l = true := by
  cases l <;> simp [subList, List.isPrefixOf]

theorem containsCI_empty (h : String) : containsCI h "" = true :=
  subList_nil _

/-- One element of the `related_entities` collection: the Cypher map
`{name: related.name, type: related.type, relationship: r.description}`;
all three components are null in the artifact row produced when the
`OPTIONAL MATCH` finds no neighbour. -/
structure RelatedRef where
  name : Option String
  type : Option String
  relationship : Option String
deriving DecidableEq

/-- One record of the search queries' `RETURN` clause (both the vector
path and the keyword path project exactly these seven fields). -/
structure SearchResult where
  entity_name : String
  entity_type : String
  entity_description : String
  connections : Int
  relevance_score : ℚ
  related_entities : List RelatedRef
  communities : List String
deriving DecidableEq

/-- `collect(DISTINCT …)`: keep the first occurrence of each value. -/
def firstDedup {α : Type} [DecidableEq α] : List α → List α
  | [] => []
  | a :: t => a :: firstDedup (t.filter (fun x => decide (x ≠ a)))
termination_by l => l.length
decreasing_by
  simp_wf
  exact Nat.lt_succ_of_le (List.length_filter_le _ _)

/-- `OPTIONAL MATCH (e)-[r:RELATES_TO]-(related:Entity)` followed by
`collect(DISTINCT {name…, type…, relationship…})[..5]`: the undirected
neighbours of entity `eid` with the joining edge's description; when no
neighbour exists the single all-null map collected from the null row. -/
def relatedOf (s : GraphState) (eid : String) : List RelatedRef :=
  let ns := s.rels.filterMap (fun kv =>
    if kv.1.1 = eid then
      (alookup kv.1.2.1 s.entities).map (fun nb =>
        ({ name := some nb.name, type := some nb.type,
           relationship := some kv.2.description } : RelatedRef))
    else if kv.1.2.1 = eid then
      (alookup kv.1.1 s.entities).map (fun nb =>
        ({ name := some nb.name, type := some nb.type,
           relationship := some kv.2.description } : RelatedRef))
    else none)
  if ns.isEmpty then [⟨none, none, none⟩]
  else (firstDedup ns).take 5

/-- `OPTIONAL MATCH (e)-[:BELONGS_TO]->(c:Community)` with
`collect(DISTINCT c.title)[..3]` (`collect` skips the null row, so no
artifact element here). -/
def communityTitlesOf (s : GraphState) (eid : String) : List String :=
  (firstDedup ((s.belongs.filter (fun p => decide (p.1 = eid))).filterMap
    (fun p => (alookup p.2 s.communities).map (fun c => c.title)))).take 3

/-- One result row for entity `kv` with relevance `score`. -/
def mkSearchResult (s : GraphState) (kv : String × EntityProps) (score : ℚ) :
    SearchResult :=
  { entity_name := kv.2.name, entity_type := kv.2.type,
    entity_description := kv.2.description, connections := kv.2.degree,
    relevance_score := score, related_entities := relatedOf s kv.1,
    communities := communityTitlesOf s kv.1 }

/-- The `WHERE` clause of `keyword_search_entities`: case-insensitive
substring match of the query against `name` or `description`. -/
def matchesKeyword (q : String) (e : EntityProps) : Bool :=
  containsCI e.name q || containsCI e.description q

/-- `keyword_search_entities` (src/graph_api.py lines 96-122): matching
entities in store order, truncated by `LIMIT $limit`, each with the fixed
relevance score `1.0`. -/
def keywordSearchEntities (q : String) (limit : Nat) (s : GraphState) :
    List SearchResult :=
  ((s.entities.filter (fun kv => matchesKeyword q kv.2)).take limit).map
    (fun kv => mkSearchResult s kv 1)

/-- `semantic_search_entities` (src/graph_api.py lines 55-93).  `emb` is
the outcome of `get_embedding(query)` (`none`: the provider failed or is
disabled; Python's `if not embedding:` also treats an empty vector as
falsy).  `vecIndex` is the vector-index call
`db.index.vector.queryNodes('entity_embeddings', $limit, $embedding)`,
an external oracle that returns scored entities or raises. -/
def semanticSearchEntities (emb : Option EmbVec)
    (vecIndex : EmbVec → Nat → Except String (List ((String × EntityProps) × ℚ)))
    (q : String) (limit : Nat) (s : GraphState) : List SearchResult :=
  match emb with
  | none => keywordSearchEntities q limit s
  | some v =>
    if v.isEmpty then keywordSearchEntities q limit s
    else
      match vecIndex v limit with
      | .error _ => keywordSearchEntities q limit s
      | .ok nodes => nodes.map (fun p => mkSearchResult s p.1 p.2)

/-- The stop-word list of `extract_keywords` (src/graph_api.py line 128). -/
def stopWords : List String :=
  ["who", "what", "where", "when", "why", "how", "is", "are", "was", "were",
   "the", "a", "an"]

/-- Splitter for Python's no-argument `str.split()`: maximal runs of
non-whitespace characters, no empty fragments.  `acc` holds the current
word reversed. -/
def wordsAux : List Char → List Char → List (List Char)
  | [], acc => if acc.isEmpty then [] else [acc.reverse]
  | ch :: t, acc =>
    if ch.isWhitespace then
      if acc.isEmpty then wordsAux t [] else acc.reverse :: wordsAux t []
    else wordsAux t (ch :: acc)

/-- `question.lower().split()`. -/
def wordsOf (question : String) : List String :=
  (wordsAux (lowerStr question).data []).map (fun w => (⟨w⟩ : String))

/-- `extract_keywords` (src/graph_api.py lines 125-131). -/
def extractKeywords (question : String) : String :=
  String.intercalate " "
    ((wordsOf question).filter (fun w => decide (w ∉ stopWords)))

/-- Python's `round(x, 4)`: round to a multiple of `1/10000`, ties to
even (no claim exercises a tie or a float-representation artifact). -/
def roundHalfEven (x : ℚ) : ℤ :=
  if x - ⌊x⌋ < 1/2 then ⌊x⌋
  else if 1/2 < x - ⌊x⌋ then ⌊x⌋ + 1
  else if ⌊x⌋ % 2 = 0 then ⌊x⌋ else ⌊x⌋ + 1

def round4 (x : ℚ) : ℚ :=
  (roundHalfEven (x * 10000) : ℚ) / 10000

/-- One formatted result of the `/ask` endpoint. -/
structure AskResult where
  entity : String
  type : String
  description : String
  relevance : ℚ
  connections : Int
  related_entities : List RelatedRef
  communities : List String
deriving DecidableEq

/-- The `/ask` response envelope. -/
structure AskPayload where
  question : String
  search_method : String
  count : Nat
  results : List AskResult
deriving DecidableEq

/-- The per-result formatting block of `ask_graph` (src/graph_api.py
lines 290-300): `relevance` is `round(r['relevance_score'], 4)`. -/
def formatAskResult (r : SearchResult) : AskResult :=
  { entity := r.entity_name, type := r.entity_type,
    description := r.entity_description,
    relevance := round4 r.relevance_score,
    connections := r.connections,
    related_entities := r.related_entities,
    communities := r.communities }

/-- `ask_graph` (src/graph_api.py lines 268-310): semantic search with
`limit=5` when enabled, otherwise keyword extraction followed by keyword
search with `limit=5`. -/
def askGraph (semanticEnabled : Bool) (emb : Option EmbVec)
    (vecIndex : EmbVec → Nat → Except String (List ((String × EntityProps) × ℚ)))
    (question : String) (s : GraphState) : AskPayload :=
  if semanticEnabled then
    { question := question, search_method := "semantic",
      count := ((semanticSearchEntities emb vecIndex question 5 s).map
        formatAskResult).length,
      results := (semanticSearchEntities emb vecIndex question 5 s).map
        formatAskResult }
  else
    { question := question, search_method := "keyword_extraction",
      count := ((keywordSearchEntities (extractKeywords question) 5 s).map
        formatAskResult).length,
      results := (keywordSearchEntities (extractKeywords question) 5 s).map
        formatAskResult }

/-- One element of `/entity`'s `connected_entities` collection — the map
`{entity…, type…, path_length…}`, all-null when the `OPTIONAL MATCH`
found no path. -/
structure ConnectedRef where
  entity : Option String
  type : Option String
  path_length : Option Nat
deriving DecidableEq

/-- The `data` object of a successful `/entity` response. -/
structure EntityDetail where
  name : String
  type : String
  description : String
  degree : Int
  communities : List String
  connected_entities : List ConnectedRef
deriving DecidableEq

/-- Endpoints reachable from `cur` by undirected `RELATES_TO` trails of
length `1..fuel` that repeat no edge (Cypher's relationship-uniqueness
for variable-length patterns), paired with the trail length; every node
on the trail must exist as an Entity. -/
def trailsFrom (s : GraphState) : Nat → String →
    List (String × String × String) → Nat → List (String × Nat)
  | 0, _, _, _ => []
  | fuel + 1, cur, used, len =>
    (s.rels.filterMap (fun kv =>
      if decide (kv.1 ∈ used) then none
      else if kv.1.1 = cur then some (kv.1, kv.1.2.1)
      else if kv.1.2.1 = cur then some (kv.1, kv.1.1)
      else none)).flatMap (fun p =>
        if (alookup p.2 s.entities).isSome then
          (p.2, len + 1) :: trailsFrom s fuel p.2 (p.1 :: used) (len + 1)
        else [])

/-- `OPTIONAL MATCH path = (e)-[r:RELATES_TO*1..depth]-(connected:Entity)`
with `collect(DISTINCT {entity…, type…, path_length: length(path)})[..20]`. -/
def connectedOf (s : GraphState) (eid : String) (depth : Nat) : List ConnectedRef :=
  let refs := (trailsFrom s depth eid [] 0).filterMap (fun p =>
    (alookup p.1 s.entities).map (fun e =>
      ({ entity := some e.name, type := some e.type,
         path_length := some p.2 } : ConnectedRef)))
  if refs.isEmpty then [⟨none, none, none⟩]
  else (firstDedup refs).take 20

/-- `get_entity` (src/graph_api.py lines 313-349): `MATCH (e:Entity
{name: $name})`; zero matches leave `result.single()` with no record and
raise the 404; one match yields the detail payload; two or more make
`single()` raise, surfaced as a 500.  The error component is the HTTP
status code. -/
def getEntity (s : GraphState) (name : String) (depth : Nat) :
    Except Nat EntityDetail :=
  match s.entities.filter (fun kv => decide (kv.2.name = name)) with
  | [] => .error 404
  | [kv] => .ok
      { name := kv.2.name, type := kv.2.type, description := kv.2.description,
        degree := kv.2.degree,
        communities := firstDedup
          ((s.belongs.filter (fun p => decide (p.1 = kv.1))).filterMap
            (fun p => (alookup p.2 s.communities).map (fun cp => cp.title))),
        connected_entities := connectedOf s kv.1 depth }
  | _ => .error 500

/-- `[none]` for an empty optional-match candidate list, otherwise the
candidates: one Cypher row survives an `OPTIONAL MATCH` that finds
nothing, carrying a null binding. -/
def optList {α : Type} (l : List α) : List (Option α) :=
  if l.isEmpty then [none] else l.map some

/-- The row set of `fetch_graph_stats`' query (src/graph_api.py lines
178-196): `MATCH (e:Entity)` rows, extended by `OPTIONAL MATCH
(e)-[r:RELATES_TO]->()`, `OPTIONAL MATCH (c:Community)` and `OPTIONAL
MATCH (d:Document)` — a cross product that is empty when no Entity
exists. -/
def statsRows (s : GraphState) :
    List ((String × EntityProps) ×
      Option ((String × String × String) × RelProps) ×
      Option (String × CommunityProps) × Option (String × DocProps)) :=
  s.entities.flatMap (fun e =>
    (optList (s.rels.filter (fun kv => decide (kv.1.1 = e.1)))).flatMap (fun r =>
      (optList s.communities).flatMap (fun cm =>
        (optList s.documents).map (fun d => (e, r, cm, d)))))

/-- `count(DISTINCT x)` over non-null bindings. -/
def countDistinct {α : Type} [DecidableEq α] (l : List α) : Nat :=
  l.toFinset.card

/-- The record returned by `fetch_graph_stats`. -/
structure GraphStats where
  total_entities : Nat
  total_relationships : Nat
  total_communities : Nat
  total_documents : Nat
deriving DecidableEq

/-- `fetch_graph_stats`: the four `count(DISTINCT …)` aggregates over the
query's row set (`count` skips null bindings). -/
def fetchGraphStats (s : GraphState) : GraphStats :=
  { total_entities := countDistinct ((statsRows s).map (fun row => row.1))
    total_relationships := countDistinct ((statsRows s).filterMap (fun row => row.2.1))
    total_communities := countDistinct ((statsRows s).filterMap (fun row => row.2.2.1))
    total_documents := countDistinct ((statsRows s).filterMap (fun row => row.2.2.2)) }

/-- C7: a name matching no Entity node makes `result.single()` yield no
record, so `/entity` raises the 404 — never a success payload. -/
theorem getEntity_not_found (s : GraphState) (name : String) (depth : Nat)
    (h : s.entities.filter (fun kv => decide (kv.2.name = name)) = []) :
    getEntity s name depth = Except.error 404 := by
  simp only [getEntity, h]

/-- Witness for C7: a graph knowing only "Acme", asked for "Ghost". -/
theorem getEntity_not_found_witness :
    getEntity { emptyGraphState with entities :=
        [("e1", ⟨"Acme", "ORG", "d", 0, 0, none, none, none⟩)] } "Ghost" 2 =
      Except.error 404 :=
  getEntity_not_found _ _ _ (by decide)

/-- C4: when the query embedding cannot be obtained, or the vector-index
call raises, `semantic_search_entities` returns exactly the keyword
search on the same query and limit; both paths build the same
seven-field `SearchResult` records (`entity_name`, `entity_type`,
`entity_description`, `connections`, `relevance_score`,
`related_entities`, `communities`) by construction. -/
theorem semanticSearch_fallback (emb : Option EmbVec)
    (vecIndex : EmbVec → Nat → Except String (List ((String × EntityProps) × ℚ)))
    (q : String) (limit : Nat) (s : GraphState) :
    (emb = none →
      semanticSearchEntities emb vecIndex q limit s =
        keywordSearchEntities q limit s)
    ∧ (∀ v err, emb = some v → vecIndex v limit = Except.error err →
      semanticSearchEntities emb vecIndex q limit s =
        keywordSearchEntities q limit s) := by
  constructor
  · intro h
    simp [semanticSearchEntities, h]
  · intro v err he hv
    subst he
    cases hve : v.isEmpty <;> simp [semanticSearchEntities, hv, hve]

/-- Witness for C4: the provider returned no embedding, and the vector
index would raise anyway. -/
theorem semanticSearch_fallback_witness :
    semanticSearchEntities none (fun _ _ => Except.error "no such index") "acme" 5
        { emptyGraphState with entities :=
          [("e1", ⟨"Acme", "ORG", "a company", 0, 0, none, none, none⟩)] } =
      keywordSearchEntities "acme" 5
        { emptyGraphState with entities :=
          [("e1", ⟨"Acme", "ORG", "a company", 0, 0, none, none, none⟩)] } :=
  (semanticSearch_fallback none _ "acme" 5 _).1 rfl

/-- C3 (amended): keyword search returns exactly the matching entities in
store order truncated to `limit`, each with relevance score 1.0; a query
matched by exactly one entity — its name containing the query and nothing
else matching — is returned whenever `limit ≥ 1`. -/
theorem keywordSearch_spec (q : String) (limit : Nat) (s : GraphState) :
    (keywordSearchEntities q limit s =
      ((s.entities.filter (fun kv => matchesKeyword q kv.2)).take limit).map
        (fun kv => mkSearchResult s kv 1))
    ∧ (∀ r ∈ keywordSearchEntities q limit s, r.relevance_score = 1)
    ∧ (keywordSearchEntities q limit s).length ≤ limit
    ∧ (∀ kv, 1 ≤ limit →
        s.entities.filter (fun kv' => matchesKeyword q kv'.2) = [kv] →
        keywordSearchEntities q limit s = [mkSearchResult s kv 1]) := by
  refine ⟨rfl, ?_, ?_, ?_⟩
  · intro r hr
    simp only [keywordSearchEntities, List.mem_map] at hr
    obtain ⟨kv, _, hkv⟩ := hr
    rw [← hkv]
    rfl
  · have hlen : (keywordSearchEntities q limit s).length =
        min limit (s.entities.filter (fun kv => matchesKeyword q kv.2)).length := by
      simp [keywordSearchEntities]
    rw [hlen]
    exact Nat.min_le_left _ _
  · intro kv hl hf
    unfold keywordSearchEntities
    rw [hf]
    cases limit with
    | zero => exact absurd hl (by omega)
    | succ m => simp

/-- Counterexample to C3 as stated: "alpha" occurs (case-insensitively)
in exactly one entity's name ("Alphabet"), but another entity matches on
its description and fills the single result slot first, so the claimed
entity is not among the results. -/
theorem keywordSearch_name_counterexample :
    ((({ emptyGraphState with entities :=
        [("e1", ⟨"Zeta", "T", "alpha topic", 0, 0, none, none, none⟩),
         ("e2", ⟨"Alphabet", "T", "zzz", 0, 0, none, none, none⟩)] } :
        GraphState).entities.filter
          (fun kv => containsCI kv.2.name "alpha")).length = 1)
    ∧ (keywordSearchEntities "alpha" 1
        { emptyGraphState with entities :=
          [("e1", ⟨"Zeta", "T", "alpha topic", 0, 0, none, none, none⟩),
           ("e2", ⟨"Alphabet", "T", "zzz", 0, 0, none, none, none⟩)] }).all
        (fun r => decide (r.entity_name ≠ "Alphabet")) = true := by
  constructor
  · decide
  · decide

/-- Witness for C3 (amended): a sole name-match with `limit = 1` is
returned as the single result. -/
theorem keywordSearch_spec_witness :
    keywordSearchEntities "acme" 1
        { emptyGraphState with entities :=
          [("e1", ⟨"Acme Corp", "ORG", "a company", 0, 0, none, none, none⟩)] } =
      [mkSearchResult
        { emptyGraphState with entities :=
          [("e1", ⟨"Acme Corp", "ORG", "a company", 0, 0, none, none, none⟩)] }
        ("e1", ⟨"Acme Corp", "ORG", "a company", 0, 0, none, none, none⟩) 1] :=
  (keywordSearch_spec "acme" 1 _).2.2.2
    ("e1", ⟨"Acme Corp", "ORG", "a company", 0, 0, none, none, none⟩)
    (by decide) (by decide)

theorem round4_one : round4 1 = 1 := by
  unfold round4 roundHalfEven
  norm_num

/-- C10: a question made of stop words only yields the empty keyword
string; `/ask` without semantic search then keyword-searches the empty
query, which matches every entity (the empty string is a substring of
every name), returning the first five entities, each formatted with
relevance 1.0. -/
theorem askGraph_stopwords (question : String) (s : GraphState)
    (emb : Option EmbVec)
    (vecIndex : EmbVec → Nat → Except String (List ((String × EntityProps) × ℚ)))
    (h : ∀ w ∈ wordsOf question, w ∈ stopWords) :
    extractKeywords question = ""
    ∧ askGraph false emb vecIndex question s =
        { question := question, search_method := "keyword_extraction",
          count := ((s.entities.take 5).map
            (fun kv => formatAskResult (mkSearchResult s kv 1))).length,
          results := (s.entities.take 5).map
            (fun kv => formatAskResult (mkSearchResult s kv 1)) }
    ∧ (∀ r ∈ (askGraph false emb vecIndex question s).results, r.relevance = 1) := by
  have hkw : extractKeywords question = "" := by
    unfold extractKeywords
    have hnil : (wordsOf question).filter (fun w => decide (w ∉ stopWords)) = [] := by
      rw [List.filter_eq_nil_iff]
      intro w hw
      simp [h w hw]
    rw [hnil]
    rfl
  have hmatch : s.entities.filter (fun kv => matchesKeyword "" kv.2) = s.entities :=
    List.filter_eq_self.mpr (fun kv _ => by
      simp [matchesKeyword, containsCI_empty])
  have hres : keywordSearchEntities "" 5 s =
      (s.entities.take 5).map (fun kv => mkSearchResult s kv 1) := by
    unfold keywordSearchEntities
    rw [hmatch]
  have hres2 : (askGraph false emb vecIndex question s).results =
      (s.entities.take 5).map (fun kv => formatAskResult (mkSearchResult s kv 1)) := by
    simp [askGraph, hkw, hres, Function.comp_def]
  refine ⟨hkw, ?_, ?_⟩
  · simp [askGraph, hkw, hres, Function.comp_def]
  · intro r hr
    rw [hres2] at hr
    simp only [List.mem_map] at hr
    obtain ⟨kv, _, hkv⟩ := hr
    rw [← hkv]
    exact round4_one

/-- Witness for C10: an all-stop-word question produces the empty
keyword string. -/
theorem askGraph_stopwords_witness :
    extractKeywords "Who is the" = "" :=
  (askGraph_stopwords "Who is the" emptyGraphState none
    (fun _ _ => Except.error "e") (by decide)).1

theorem optList_ne_nil {α : Type} (l : List α) : optList l ≠ [] := by
  unfold optList
  split
  · simp
  · next h =>
    intro hmap
    rw [List.map_eq_nil_iff] at hmap
    rw [hmap] at h
    simp at h

theorem mem_optList_some {α : Type} (l : List α) (a : α) :
    some a ∈ optList l ↔ a ∈ l := by
  unfold optList
  split
  · next h =>
    have hl : l = [] := by simpa using h
    subst hl
    simp
  · simp

theorem exists_mem_optList {α : Type} (l : List α) : ∃ x, x ∈ optList l :=
  List.exists_mem_of_ne_nil _ (optList_ne_nil l)

theorem mem_statsRows_entity (s : GraphState) (e : String × EntityProps) :
    e ∈ (statsRows s).map (fun row => row.1) ↔ e ∈ s.entities := by
  constructor
  · intro h
    simp only [statsRows, List.mem_map, List.mem_flatMap] at h
    obtain ⟨row, ⟨e', he', r, _, cm, _, d, _, hrow⟩, hre⟩ := h
    rw [← hrow] at hre
    have he2 : e' = e := hre
    exact he2 ▸ he'
  · intro h
    obtain ⟨r, hrmem⟩ :=
      exists_mem_optList (s.rels.filter (fun kv => decide (kv.1.1 = e.1)))
    obtain ⟨cm, hcm⟩ := exists_mem_optList s.communities
    obtain ⟨d, hd⟩ := exists_mem_optList s.documents
    simp only [statsRows, List.mem_map, List.mem_flatMap]
    exact ⟨(e, r, cm, d), ⟨e, h, r, hrmem, cm, hcm, d, hd, rfl⟩, rfl⟩

theorem mem_statsRows_rel (s : GraphState)
    (hwf : ∀ kv ∈ s.rels, kv.1.1 ∈ keysOf s.entities)
    (rv : (String × String × String) × RelProps) :
    rv ∈ (statsRows s).filterMap (fun row => row.2.1) ↔ rv ∈ s.rels := by
  constructor
  · intro h
    simp only [List.mem_filterMap] at h
    obtain ⟨row, hrow, hr⟩ := h
    simp only [statsRows, List.mem_flatMap, List.mem_map] at hrow
    obtain ⟨e, _, r, hrmem, cm, _, d, _, hrow⟩ := hrow
    rw [← hrow] at hr
    have hr2 : r = some rv := hr
    rw [hr2] at hrmem
    exact List.mem_of_mem_filter ((mem_optList_some _ rv).mp hrmem)
  · intro h
    obtain ⟨e, he, he1⟩ := List.mem_map.mp (hwf rv h)
    obtain ⟨cm, hcm⟩ := exists_mem_optList s.communities
    obtain ⟨d, hd⟩ := exists_mem_optList s.documents
    simp only [List.mem_filterMap]
    refine ⟨(e, some rv, cm, d), ?_, rfl⟩
    simp only [statsRows, List.mem_flatMap, List.mem_map]
    refine ⟨e, he, some rv, ?_, cm, hcm, d, hd, rfl⟩
    rw [mem_optList_some]
    exact List.mem_filter.mpr ⟨h, by simp [he1]⟩

theorem mem_statsRows_comm (s : GraphState) (cv : String × CommunityProps) :
    cv ∈ (statsRows s).filterMap (fun row => row.2.2.1) ↔
      (s.entities ≠ [] ∧ cv ∈ s.communities) := by
  constructor
  · intro h
    simp only [List.mem_filterMap] at h
    obtain ⟨row, hrow, hc⟩ := h
    simp only [statsRows, List.mem_flatMap, List.mem_map] at hrow
    obtain ⟨e, he, r, _, cm, hcm, d, _, hrow⟩ := hrow
    rw [← hrow] at hc
    have hc2 : cm = some cv := hc
    rw [hc2] at hcm
    exact ⟨List.ne_nil_of_mem he, (mem_optList_some _ cv).mp hcm⟩
  · rintro ⟨hne, h⟩
    obtain ⟨e, he⟩ := List.exists_mem_of_ne_nil _ hne
    obtain ⟨r, hrmem⟩ :=
      exists_mem_optList (s.rels.filter (fun kv => decide (kv.1.1 = e.1)))
    obtain ⟨d, hd⟩ := exists_mem_optList s.documents
    simp only [List.mem_filterMap]
    refine ⟨(e, r, some cv, d), ?_, rfl⟩
    simp only [statsRows, List.mem_flatMap, List.mem_map]
    exact ⟨e, he, r, hrmem, some cv, (mem_optList_some _ cv).mpr h, d, hd, rfl⟩

theorem mem_statsRows_doc (s : GraphState) (dv : String × DocProps) :
    dv ∈ (statsRows s).filterMap (fun row => row.2.2.2) ↔
      (s.entities ≠ [] ∧ dv ∈ s.documents) := by
  constructor
  · intro h
    simp only [List.mem_filterMap] at h
    obtain ⟨row, hrow, hd⟩ := h
    simp only [statsRows, List.mem_flatMap, List.mem_map] at hrow
    obtain ⟨e, he, r, _, cm, _, d, hdm, hrow⟩ := hrow
    rw [← hrow] at hd
    have hd2 : d = some dv := hd
    rw [hd2] at hdm
    exact ⟨List.ne_nil_of_mem he, (mem_optList_some _ dv).mp hdm⟩
  · rintro ⟨hne, h⟩
    obtain ⟨e, he⟩ := List.exists_mem_of_ne_nil _ hne
    obtain ⟨r, hrmem⟩ :=
      exists_mem_optList (s.rels.filter (fun kv => decide (kv.1.1 = e.1)))
    obtain ⟨cm, hcm⟩ := exists_mem_optList s.communities
    simp only [List.mem_filterMap]
    refine ⟨(e, r, cm, some dv), ?_, rfl⟩
    simp only [statsRows, List.mem_flatMap, List.mem_map]
    exact ⟨e, he, r, hrmem, cm, hcm, some dv, (mem_optList_some _ dv).mpr h, rfl⟩

theorem countDistinct_eq_length {α : Type} [DecidableEq α] (l m : List α)
    (hiff : ∀ a, a ∈ l ↔ a ∈ m) (hm : m.Nodup) : countDistinct l = m.length := by
  unfold countDistinct
  rw [← List.toFinset_card_of_nodup hm]
  congr 1
  ext a
  simp [List.mem_toFinset, hiff a]

/-- C8 (amended): when at least one Entity node exists, `/stats` returns
the number of Entity nodes, `RELATES_TO` edges, Community nodes and
Document nodes; when no Entity exists, the leading `MATCH (e:Entity)`
yields zero rows and all four aggregates come back 0 regardless of the
communities and documents present.  Key uniqueness mirrors the store's
constraints; `hwf` says every edge's source node exists (true of any
graph the importer builds). -/
theorem fetchGraphStats_spec (s : GraphState)
    (hne : (keysOf s.entities).Nodup) (hnr : (keysOf s.rels).Nodup)
    (hnc : (keysOf s.communities).Nodup) (hnd : (keysOf s.documents).Nodup)
    (hwf : ∀ kv ∈ s.rels, kv.1.1 ∈ keysOf s.entities) :
    (s.entities ≠ [] →
      fetchGraphStats s =
        { total_entities := s.entities.length,
          total_relationships := s.rels.length,
          total_communities := s.communities.length,
          total_documents := s.documents.length })
    ∧ (s.entities = [] →
      fetchGraphStats s =
        { total_entities := 0, total_relationships := 0,
          total_communities := 0, total_documents := 0 }) := by
  constructor
  · intro hn
    have h1 : countDistinct ((statsRows s).map (fun row => row.1)) =
        s.entities.length :=
      countDistinct_eq_length _ _ (mem_statsRows_entity s)
        (List.Nodup.of_map _ hne)
    have h2 : countDistinct ((statsRows s).filterMap (fun row => row.2.1)) =
        s.rels.length :=
      countDistinct_eq_length _ _ (mem_statsRows_rel s hwf)
        (List.Nodup.of_map _ hnr)
    have h3 : countDistinct ((statsRows s).filterMap (fun row => row.2.2.1)) =
        s.communities.length :=
      countDistinct_eq_length _ _
        (fun a => by rw [mem_statsRows_comm]; simp [hn])
        (List.Nodup.of_map _ hnc)
    have h4 : countDistinct ((statsRows s).filterMap (fun row => row.2.2.2)) =
        s.documents.length :=
      countDistinct_eq_length _ _
        (fun a => by rw [mem_statsRows_doc]; simp [hn])
        (List.Nodup.of_map _ hnd)
    unfold fetchGraphStats
    rw [h1, h2, h3, h4]
  · intro hn
    have hrows : statsRows s = [] := by
      unfold statsRows
      rw [hn]
      rfl
    simp [fetchGraphStats, hrows, countDistinct]

/-- Counterexample to C8 as stated: with zero Entity nodes but one
Community and one Document present, `/stats` reports 0 for all four
counts — not the actual community and document counts. -/
theorem fetchGraphStats_zero_entity_counterexample :
    fetchGraphStats { emptyGraphState with
        communities := [("c1", ⟨"Community 1", 0, "2024"⟩)],
        documents := [("d1", ⟨"Doc", "body"⟩)] } =
      { total_entities := 0, total_relationships := 0, total_communities := 0,
        total_documents := 0 }
    ∧ ({ emptyGraphState with
        communities := [("c1", ⟨"Community 1", 0, "2024"⟩)],
        documents := [("d1", ⟨"Doc", "body"⟩)] } : GraphState).communities.length = 1 := by
  constructor
  · decide
  · decide

/-- Witness for C8 (amended): a graph with two entities, one edge, one
community and one document. -/
theorem fetchGraphStats_spec_witness :
    fetchGraphStats { emptyGraphState with
        entities := [("e1", ⟨"A", "T", "d", 0, 0, none, none, none⟩),
                     ("e2", ⟨"B", "T", "d", 0, 0, none, none, none⟩)],
        rels := [(("e1", "e2", "r1"), ⟨"knows", 1, 0, none, none, none⟩)],
        communities := [("c1", ⟨"Community 1", 0, "2024"⟩)],
        documents := [("d1", ⟨"Doc", "body"⟩)] } =
      { total_entities := 2, total_relationships := 1, total_communities := 1,
        total_documents := 1 } :=
  (fetchGraphStats_spec _ (by decide) (by decide) (by decide) (by decide)
    (by decide)).1 (by decide)
